import Mathlib

/-!
Shallow embedding of `src/bot.py`, a prayer-reminder chat bot.

The program state consists of a subscriber list (`users`, persisted as a JSON
array in `users.json`) and an in-memory sent-reminder ledger
(`sent_reminders`, a dict from date key to the list of reminder keys already
dispatched that day).  The scheduler tick `check_prayer_times` fetches the
five prayer times of the day, resets the ledger on a date change, and dispatches
`send_reminder` for every prayer whose reminder instant (prayer time minus
one hour) is within 60 seconds of the current instant and not yet recorded.

Time model: a tick happens at a local wall-clock second-of-day `nowSec` on a
calendar day named by `todayKey`.  `datetime.now(TIMEZONE)` carries the
timezone offset `OFFSET_NOW`, while the prayer datetime is built with
`.replace(tzinfo=TIMEZONE)`, which under pytz attaches the first (LMT)
zone offset `OFFSET_REPLACE`; the subtraction of the two aware datetimes in
`time_diff` therefore mixes the two offsets, exactly as the Python code does.
-/

namespace PrayerBot

/-- The five prayer labels, in the insertion order used by `get_prayer_times`. -/
def PRAYER_NAMES : List String := ["Fajr", "Dhuhr", "Asr", "Maghrib", "Isha"]

/-- UTC offset in seconds attached by `datetime.now(TIMEZONE)` for the
pytz Africa/Algiers timezone: the correctly localized CET offset +01:00. -/
def OFFSET_NOW : Int := 3600

/-- UTC offset in seconds attached by `.replace(tzinfo=TIMEZONE)` for the
pytz Africa/Algiers timezone: pytz uses the first transition info of the
zone, which is LMT +0:12:12 (732 s in the IANA data, rounded by pytz to the
whole minute +00:12 = 720 s).  This is not the CET offset used for `now`. -/
def OFFSET_REPLACE : Int := 720

/-- Split a character list at the first colon, mirroring how
`datetime.strptime(s, "%H:%M")` separates the two numeric fields.
Returns `none` when no colon occurs. -/
def splitColon : List Char → Option (List Char × List Char)
  | [] => none
  | c :: cs =>
    if c = ':' then some ([], cs)
    else
      match splitColon cs with
      | some (a, b) => some (c :: a, b)
      | none => none

/-- Value of one numeric field of `strptime "%H:%M"`: one or two decimal
digits; anything else fails (raises `ValueError` in Python). -/
def chunkVal (cs : List Char) : Option Nat :=
  if cs ≠ [] ∧ cs.length ≤ 2 ∧ cs.all Char.isDigit then
    some (cs.foldl (fun a c => 10 * a + (c.toNat - 48)) 0)
  else none

/-- Embedding of `datetime.strptime(prayer_time_str, "%H:%M")`: parses an
hour (0-23) and minute (0-59) and yields the second-of-day; `none` models the
`ValueError` raised on a malformed string. -/
def parseHM (s : String) : Option Nat :=
  match splitColon s.toList with
  | none => none
  | some (hs, ms) =>
    match chunkVal hs, chunkVal ms with
    | some h, some m => if h ≤ 23 ∧ m ≤ 59 then some (h * 3600 + m * 60) else none
    | _, _ => none

/-- `abs((now - reminder_time).total_seconds())` (src/bot.py line 116): both
datetimes denote instants on the same calendar day; `now` carries
`OFFSET_NOW` and the parsed prayer time carries `OFFSET_REPLACE`, and the
reminder time is the prayer time minus one hour (line 113). -/
def time_diff (nowSec prayerSec : Int) : Nat :=
  ((nowSec - OFFSET_NOW) - ((prayerSec - 3600) - OFFSET_REPLACE)).natAbs

/-- `self.sent_reminders`: a Python dict from date key to the list of
reminder keys already dispatched, embedded as an association list. -/
abbrev Ledger := List (String × List String)

/-- `today_key not in self.sent_reminders` (negated): dict key membership. -/
def dictHasKey (d : String) (led : Ledger) : Bool :=
  led.any (fun kv => kv.1 == d)

/-- `self.sent_reminders[today_key]`: value lookup.  In `check_prayer_times`
the key is always present when this is read (the reset on line 100-101
guarantees it); absent keys yield `[]` here. -/
def dictGet (d : String) (led : Ledger) : List String :=
  match led.find? (fun kv => kv.1 == d) with
  | some kv => kv.2
  | none => []

/-- `self.sent_reminders[today_key].append(reminder_key)` (line 122):
in-place append to the list stored under key `d`. -/
def dictAppend (d k : String) (led : Ledger) : Ledger :=
  led.map (fun kv => if kv.1 == d then (kv.1, kv.2 ++ [k]) else kv)

/-- Lines 100-101: `if today_key not in self.sent_reminders:
self.sent_reminders = {today_key: []}` - the whole dict is replaced by a
singleton mapping for today when the key for today is absent. -/
def resetLedger (d : String) (led : Ledger) : Ledger :=
  if dictHasKey d led then led else [(d, [])]

/-- The JSON payload of the timing service as `get_prayer_times` reads it:
the field code (absent field modelled as `none`, a `KeyError`) and the
nested timings object (either nesting level absent modelled as `none`). -/
structure RawPayload where
  code : Option Int
  timings : Option (List (String × String))

/-- Outcome of `requests.get(...)` plus `response.json()`: either an
exception (connection error, invalid JSON, ...) or a decoded payload. -/
inductive FetchInput where
  | transportError
  | payload (p : RawPayload)

/-- Lookup of one prayer in the timings dict of the decoded payload;
`none` models the `KeyError` on a missing prayer key. -/
def lookupTiming (k : String) (ts : List (String × String)) : Option String :=
  (ts.find? (fun kv => kv.1 == k)).map (fun kv => kv.2)

/-- `PrayerBot.get_prayer_times` (src/bot.py lines 49-77): returns the dict
of the five main prayers on success and `None` on any exception (transport
error, malformed payload, missing key) or non-200 embedded status code. -/
def get_prayer_times : FetchInput → Option (List (String × String))
  | .transportError => none
  | .payload p =>
    match p.code with
    | none => none
    | some c =>
      if c = 200 then
        match p.timings with
        | none => none
        | some ts =>
          match lookupTiming "Fajr" ts, lookupTiming "Dhuhr" ts, lookupTiming "Asr" ts,
                lookupTiming "Maghrib" ts, lookupTiming "Isha" ts with
          | some f, some dh, some a, some mg, some i =>
            some [("Fajr", f), ("Dhuhr", dh), ("Asr", a), ("Maghrib", mg), ("Isha", i)]
          | _, _, _, _, _ => none
      else none

/-- The `for prayer_name, prayer_time_str in prayers.items():` loop of
`check_prayer_times` (lines 103-122).  Returns the ledger after the loop,
the list of `send_reminder` invocations (prayer name and time string, in
order), and `true` when the loop ran to completion / `false` when a
malformed time string raised `ValueError` out of the tick (mutations made
before the exception are kept, as in Python). -/
def checkLoop (todayKey : String) (nowSec : Int) :
    List (String × String) → Ledger → Ledger × List (String × String) × Bool
  | [], led => (led, [], true)
  | (name, tstr) :: rest, led =>
    match parseHM tstr with
    | none => (led, [], false)
    | some psec =>
      let rkey := todayKey ++ "-" ++ name
      if time_diff nowSec psec < 60 ∧ rkey ∉ dictGet todayKey led then
        let r := checkLoop todayKey nowSec rest (dictAppend todayKey rkey led)
        (r.1, (name, tstr) :: r.2.1, r.2.2)
      else
        checkLoop todayKey nowSec rest led

/-- `PrayerBot.check_prayer_times` (lines 90-122), given the result of
`self.get_prayer_times()`, the current date key and local second-of-day.
`if not prayers: return` covers both `None` and an empty dict. -/
def check_prayer_times (fetched : Option (List (String × String)))
    (todayKey : String) (nowSec : Int) (led : Ledger) :
    Ledger × List (String × String) × Bool :=
  match fetched with
  | none => (led, [], true)
  | some prayers =>
    if prayers.isEmpty then (led, [], true)
    else checkLoop todayKey nowSec prayers (resetLedger todayKey led)

/-- The mutable fields of the `PrayerBot` instance. -/
structure BotState where
  users : List Int
  sent_reminders : Ledger

/-- One scheduler tick: runs `check_prayer_times` against the bot state.
`send_reminder` reads `self.users` but never mutates it (per-recipient send
failures are caught inside it), so `users` is returned unchanged. -/
def tick (s : BotState) (inp : FetchInput) (todayKey : String) (nowSec : Int) :
    BotState × List (String × String) × Bool :=
  let r := check_prayer_times (get_prayer_times inp) todayKey nowSec s.sent_reminders
  (⟨s.users, r.1⟩, r.2.1, r.2.2)

/-- A sequence of scheduler ticks; each tick supplies its date key, fetch
outcome and local second-of-day.  Returns the final state and the
concatenated `send_reminder` invocations. -/
def runTicks : List (String × FetchInput × Int) → BotState → BotState × List (String × String)
  | [], s => (s, [])
  | (d, inp, nowSec) :: rest, s =>
    let r := tick s inp d nowSec
    let r2 := runTicks rest r.1
    (r2.1, r.2.1 ++ r2.2)

/-- State of the persisted `users.json` file: absent, present but not valid
JSON, or present with a parsed JSON array of chat ids. -/
inductive FileState where
  | missing
  | corrupt
  | content (l : List Int)
deriving DecidableEq

/-- `PrayerBot.load_users` (lines 37-42): `[]` when the file is missing, the
parsed content when it parses; `json.load` raising on a corrupt file is not
caught, so the error propagates (fatal during `PrayerBot()` construction). -/
def load_users : FileState → Except Unit (List Int)
  | .missing => .ok []
  | .corrupt => .error ()
  | .content l => .ok l

/-- In-memory subscriber list together with the persisted file. -/
structure AppState where
  users : List Int
  file : FileState
deriving DecidableEq

/-- `PrayerBot.save_users` (lines 44-47): rewrites the file with the full
current list. -/
def save_users (s : AppState) : AppState :=
  { s with file := .content s.users }

/-- `PrayerBot.__init__` via `load_users`: the startup state. -/
def init (fs : FileState) : Except Unit AppState :=
  (load_users fs).map (fun l => ⟨l, fs⟩)

/-- Replies sent by the subscribe/unsubscribe handlers. -/
inductive Reply where
  | startWelcome
  | stopConfirm
  | stopNotSubscribed
deriving DecidableEq

/-- `/start` handler (lines 130-146): append the chat id if absent, persist,
always reply with the welcome text. -/
def start_cmd (chatId : Int) (s : AppState) : AppState × Reply :=
  let s' := if chatId ∉ s.users then save_users { s with users := s.users ++ [chatId] } else s
  (s', .startWelcome)

/-- `/stop` handler (lines 165-175): `list.remove` drops the first
occurrence; persisted and confirmed when present, distinct reply when not. -/
def stop_cmd (chatId : Int) (s : AppState) : AppState × Reply :=
  if chatId ∈ s.users then
    (save_users { s with users := s.users.erase chatId }, .stopConfirm)
  else (s, .stopNotSubscribed)

/-- A subscribe or unsubscribe command. -/
inductive Cmd where
  | start (chatId : Int)
  | stop (chatId : Int)

/-- State effect of one command. -/
def applyCmd (c : Cmd) (s : AppState) : AppState :=
  match c with
  | .start cid => (start_cmd cid s).1
  | .stop cid => (stop_cmd cid s).1

/-- State after a sequence of commands. -/
def runCmds : List Cmd → AppState → AppState
  | [], s => s
  | c :: cs, s => runCmds cs (applyCmd c s)

/-- Store invariant: no duplicate subscribers, and reloading the persisted
file yields exactly the in-memory list (a missing file loads as `[]`). -/
def Inv (s : AppState) : Prop :=
  s.users.Nodup ∧ load_users s.file = .ok s.users

/-- 1 when `rkey` is recorded under date `d` in the ledger, else 0. -/
def memN (d rkey : String) (led : Ledger) : Nat :=
  if rkey ∈ dictGet d led then 1 else 0

/-- The time-table of the worked scenario in the spec. -/
def SAMPLE_TT : List (String × String) :=
  [("Fajr", "05:00"), ("Dhuhr", "12:30"), ("Asr", "16:00"),
   ("Maghrib", "18:45"), ("Isha", "20:00")]

/-! ### Ledger lemmas -/

/-- A key that is not in the dict looks up to the empty list. -/
theorem dictGet_of_not_hasKey {d : String} {led : Ledger} (h : dictHasKey d led = false) :
    dictGet d led = [] := by
  have h' : ∀ kv ∈ led, ¬ ((fun kv : String × List String => kv.1 == d) kv = true) := by
    intro kv hkv hbeq
    have ht : dictHasKey d led = true := by
      simp only [dictHasKey, List.any_eq_true]
      exact ⟨kv, hkv, hbeq⟩
    rw [ht] at h
    simp at h
  simp [dictGet, List.find?_eq_none.mpr h']

/-- Appending to one entry does not change the key sequence. -/
theorem dictAppend_keys (d k : String) (led : Ledger) :
    (dictAppend d k led).map Prod.fst = led.map Prod.fst := by
  unfold dictAppend
  rw [List.map_map]
  apply List.map_congr_left
  intro kv _
  by_cases hkv : kv.1 = d
  · simp [Function.comp, hkv]
  · simp [Function.comp, hkv]

/-- Key membership is unchanged by `dictAppend`. -/
theorem dictHasKey_dictAppend (d' d k : String) (led : Ledger) :
    dictHasKey d' (dictAppend d k led) = dictHasKey d' led := by
  induction led with
  | nil => rfl
  | cons kv rest ih =>
    simp only [dictAppend, List.map_cons, dictHasKey, List.any_cons] at ih ⊢
    have hhead : (if (kv.1 == d) = true then (kv.1, kv.2 ++ [k]) else kv).1 = kv.1 := by
      split <;> rfl
    rw [hhead, ih]

/-- Appending under a present key appends to the stored list. -/
theorem dictGet_dictAppend_self {d : String} (k : String) {led : Ledger}
    (h : dictHasKey d led = true) :
    dictGet d (dictAppend d k led) = dictGet d led ++ [k] := by
  induction led with
  | nil => simp [dictHasKey] at h
  | cons kv rest ih =>
    by_cases hkv : kv.1 = d
    · simp [dictAppend, dictGet, hkv]
    · have hb : (kv.1 == d) = false := by simp [hkv]
      have h' : dictHasKey d rest = true := by
        simp only [dictHasKey, List.any_cons, hb, Bool.false_or] at h
        exact h
      simp only [dictAppend, List.map_cons, if_neg hkv, dictGet] at ih ⊢
      rw [List.find?_cons_of_neg _ (by simp [hb]), List.find?_cons_of_neg _ (by simp [hb])]
      exact ih h'

/-- The ledger occupancy indicator is at most 1. -/
theorem memN_le_one (d rkey : String) (led : Ledger) : memN d rkey led ≤ 1 := by
  unfold memN
  split <;> simp

/-! ### Scheduler-loop lemmas -/

/-- The reminder loop never adds or removes ledger keys. -/
theorem checkLoop_keys (d : String) (now : Int) (ps : List (String × String)) (led : Ledger) :
    ((checkLoop d now ps led).1).map Prod.fst = led.map Prod.fst := by
  induction ps generalizing led with
  | nil => rfl
  | cons e rest ih =>
    obtain ⟨name, tstr⟩ := e
    unfold checkLoop
    cases hp : parseHM tstr with
    | none => rfl
    | some psec =>
      by_cases hc : time_diff now psec < 60 ∧ (d ++ "-" ++ name) ∉ dictGet d led
      · simp only [if_pos hc]
        rw [ih, dictAppend_keys]
      · simp only [if_neg hc]
        exact ih led

/-- The loop completes normally exactly when every time string parses. -/
theorem checkLoop_flag (d : String) (now : Int) (ps : List (String × String)) (led : Ledger) :
    (checkLoop d now ps led).2.2 = ps.all (fun e => (parseHM e.2).isSome) := by
  induction ps generalizing led with
  | nil => rfl
  | cons e rest ih =>
    obtain ⟨name, tstr⟩ := e
    unfold checkLoop
    cases hp : parseHM tstr with
    | none => simp [List.all_cons, hp]
    | some psec =>
      by_cases hc : time_diff now psec < 60 ∧ (d ++ "-" ++ name) ∉ dictGet d led
      · simp only [if_pos hc, List.all_cons, hp, Option.isSome_some, Bool.true_and]
        exact ih (dictAppend d (d ++ "-" ++ name) led)
      · simp only [if_neg hc, List.all_cons, hp, Option.isSome_some, Bool.true_and]
        exact ih led

/-- Core duplicate-suppression bound for the loop: when the date key is
present, the number of dispatches of a given prayer plus its prior ledger
occupancy never exceeds its final ledger occupancy. -/
theorem checkLoop_count (d name : String) (now : Int) (ps : List (String × String))
    (led : Ledger) (h : dictHasKey d led = true) :
    ((checkLoop d now ps led).2.1.countP (fun e => e.1 == name))
      + memN d (d ++ "-" ++ name) led
      ≤ memN d (d ++ "-" ++ name) (checkLoop d now ps led).1 := by
  induction ps generalizing led with
  | nil => simp [checkLoop]
  | cons e rest ih =>
    obtain ⟨pname, tstr⟩ := e
    unfold checkLoop
    cases hp : parseHM tstr with
    | none => simp [List.countP_nil]
    | some psec =>
      by_cases hc : time_diff now psec < 60 ∧ (d ++ "-" ++ pname) ∉ dictGet d led
      · simp only [if_pos hc, List.countP_cons]
        have hkey2 : dictHasKey d (dictAppend d (d ++ "-" ++ pname) led) = true := by
          rw [dictHasKey_dictAppend]; exact h
        have hget2 := dictGet_dictAppend_self (d ++ "-" ++ pname) h
        have ih2 := ih (dictAppend d (d ++ "-" ++ pname) led) hkey2
        by_cases hn : pname = name
        · subst hn
          have hm0 : memN d (d ++ "-" ++ pname) led = 0 := by
            unfold memN
            rw [if_neg hc.2]
          have hm2 : memN d (d ++ "-" ++ pname) (dictAppend d (d ++ "-" ++ pname) led) = 1 := by
            unfold memN
            rw [if_pos]
            rw [hget2]
            exact List.mem_append_right _ (List.mem_singleton.mpr rfl)
          have hle := memN_le_one d (d ++ "-" ++ pname)
            (checkLoop d now rest (dictAppend d (d ++ "-" ++ pname) led)).1
          simp only [beq_self_eq_true, if_pos] at *
          omega
        · have hb : (pname == name) = false := by
            exact beq_eq_false_iff_ne.mpr hn
          have hmono : memN d (d ++ "-" ++ name) led
              ≤ memN d (d ++ "-" ++ name) (dictAppend d (d ++ "-" ++ pname) led) := by
            unfold memN
            by_cases hmem : (d ++ "-" ++ name) ∈ dictGet d led
            · rw [if_pos hmem, if_pos]
              rw [hget2]
              exact List.mem_append_left _ hmem
            · rw [if_neg hmem]
              split <;> simp
          simp only [hb, Bool.false_eq_true, if_false]
          omega
      · simp only [if_neg hc]
        exact ih led h

/-- Duplicate-suppression bound for a whole tick body, any fetch outcome. -/
theorem check_prayer_times_count (fetched : Option (List (String × String)))
    (d name : String) (now : Int) (led : Ledger) :
    ((check_prayer_times fetched d now led).2.1.countP (fun e => e.1 == name))
      + memN d (d ++ "-" ++ name) led
      ≤ memN d (d ++ "-" ++ name) (check_prayer_times fetched d now led).1 := by
  cases fetched with
  | none => simp [check_prayer_times]
  | some prayers =>
    unfold check_prayer_times
    by_cases he : prayers.isEmpty
    · simp [he]
    · simp only [he, Bool.false_eq_true, if_false]
      cases hhk : dictHasKey d led with
      | false =>
        have hres : resetLedger d led = [(d, [])] := by
          unfold resetLedger
          rw [hhk]
          rfl
        have hm0 : memN d (d ++ "-" ++ name) led = 0 := by
          unfold memN
          rw [if_neg]
          rw [dictGet_of_not_hasKey hhk]
          exact List.not_mem_nil _
        have hm1 : memN d (d ++ "-" ++ name) (resetLedger d led) = 0 := by
          unfold memN
          rw [hres, if_neg]
          simp [dictGet]
        have hkey1 : dictHasKey d (resetLedger d led) = true := by
          rw [hres]
          simp [dictHasKey]
        have := checkLoop_count d name now prayers (resetLedger d led) hkey1
        omega
      | true =>
        have hres : resetLedger d led = led := by
          unfold resetLedger
          rw [hhk]
          rfl
        rw [hres]
        exact checkLoop_count d name now prayers led hhk

/-- Duplicate-suppression bound for a full scheduler tick. -/
theorem tick_count (s : BotState) (inp : FetchInput) (d name : String) (now : Int) :
    ((tick s inp d now).2.1.countP (fun e => e.1 == name))
      + memN d (d ++ "-" ++ name) s.sent_reminders
      ≤ memN d (d ++ "-" ++ name) ((tick s inp d now).1).sent_reminders :=
  check_prayer_times_count (get_prayer_times inp) d name now s.sent_reminders

/-- Duplicate-suppression bound over any sequence of same-day ticks. -/
theorem runTicks_count (d name : String) (ticks : List (String × FetchInput × Int))
    (s : BotState) (h : ∀ t ∈ ticks, t.1 = d) :
    ((runTicks ticks s).2.countP (fun e => e.1 == name))
      + memN d (d ++ "-" ++ name) s.sent_reminders
      ≤ memN d (d ++ "-" ++ name) ((runTicks ticks s).1).sent_reminders := by
  induction ticks generalizing s with
  | nil => simp [runTicks]
  | cons t rest ih =>
    obtain ⟨td, inp, now⟩ := t
    have htd : td = d := h (td, inp, now) (List.mem_cons_self _ _)
    subst htd
    unfold runTicks
    simp only [List.countP_append]
    have h1 := tick_count s inp td name now
    have h2 := ih (tick s inp td now).1 (fun t ht => h t (List.mem_cons_of_mem _ ht))
    omega

/-! ### Claim theorems -/

/-- C1: over any sequence of scheduler ticks within one calendar day (every
tick carries the same date key), each prayer name is dispatched
(`send_reminder` invoked) at most once, however many ticks satisfy the
sub-60-second window condition: the guard on src/bot.py line 119 dispatches
only when the reminder key is absent from the ledger entry of the day, and
line 122 records the key immediately after dispatching. -/
theorem C1_at_most_one_dispatch_per_prayer_per_day (d name : String)
    (ticks : List (String × FetchInput × Int)) (s : BotState)
    (h : ∀ t ∈ ticks, t.1 = d) :
    ((runTicks ticks s).2.countP (fun e => e.1 == name)) ≤ 1 := by
  have h1 := runTicks_count d name ticks s h
  have h2 := memN_le_one d (d ++ "-" ++ name) ((runTicks ticks s).1).sent_reminders
  omega

/-- Witness for C1: three same-day ticks, two of them inside the shifted Asr
reminder window, produce at most one Asr dispatch. -/
theorem C1_at_most_one_dispatch_per_prayer_per_day_witness :
    ((runTicks [("2025-06-15", .payload ⟨some 200, some SAMPLE_TT⟩, 56880),
                ("2025-06-15", .payload ⟨some 200, some SAMPLE_TT⟩, 56890),
                ("2025-06-15", .payload ⟨some 200, some SAMPLE_TT⟩, 56930)] ⟨[], []⟩).2.countP
      (fun e => e.1 == "Asr")) ≤ 1 :=
  C1_at_most_one_dispatch_per_prayer_per_day "2025-06-15" "Asr" _ ⟨[], []⟩ (by decide)

/-- C5: a tick whose fetch returns failure performs no dispatch, leaves the
ledger and the subscriber list exactly as they were, and returns normally. -/
theorem C5_failed_fetch_leaves_state_unchanged (s : BotState) (d : String) (now : Int)
    (inp : FetchInput) (h : get_prayer_times inp = none) :
    tick s inp d now = (s, [], true) := by
  unfold tick
  rw [h]
  rfl

/-- Witness for C5 at a concrete state and a transport error. -/
theorem C5_failed_fetch_leaves_state_unchanged_witness :
    tick ⟨[3], [("2025-06-14", ["2025-06-14-Fajr"])]⟩ .transportError "2025-06-15" 54010
      = (⟨[3], [("2025-06-14", ["2025-06-14-Fajr"])]⟩, [], true) :=
  C5_failed_fetch_leaves_state_unchanged _ _ _ _ rfl

/-- C9: `load_users` returns `[]` when no file exists, the parsed content
when the file parses, and propagates the parse exception (fatal, never the
empty-list fallback) when the file is corrupt. -/
theorem C9_load_users_contract :
    load_users .missing = Except.ok []
    ∧ (∀ l, load_users (.content l) = Except.ok l)
    ∧ load_users .corrupt = Except.error () :=
  ⟨rfl, fun _ => rfl, rfl⟩

/-- C10: `load_users` neither deduplicates nor validates: a persisted array
holding the same id twice loads as-is, so after startup the in-memory list
holds the duplicate, and a later subscribe keeps it; the no-duplicates
invariant is not re-established at load time. -/
theorem C10_load_performs_no_dedup :
    init (.content [7, 7]) = Except.ok ⟨[7, 7], .content [7, 7]⟩
    ∧ ([7, 7] : List Int).count 7 = 2
    ∧ (start_cmd 5 ⟨[7, 7], .content [7, 7]⟩).1.users = [7, 7, 5]
    ∧ ([7, 7, 5] : List Int).count 7 = 2 :=
  ⟨rfl, by decide, by decide, by decide⟩

/-- C2 (code behavior at the inputs of the claim): with the scenario
time-table, the tick at local 15:00:10 (second 54010) dispatches nothing.
The code subtracts instants carrying mismatched offsets - `now` at CET
+01:00, the parsed prayer time at pytz LMT +00:12 - so the Asr difference
is 2870 s, not the claimed 10 s.  Ticks at 14:58:00 and 15:02:00 also
dispatch nothing; the Asr dispatch actually happens near local 15:48
(second 56890), twelve minutes before the prayer. -/
theorem C2_tick_at_claimed_window_does_not_dispatch :
    (tick ⟨[1], []⟩ (.payload ⟨some 200, some SAMPLE_TT⟩) "2025-06-15" 54010).2.1 = []
    ∧ parseHM "16:00" = some 57600
    ∧ time_diff 54010 57600 = 2870
    ∧ time_diff 53880 57600 = 3000
    ∧ time_diff 54120 57600 = 2760
    ∧ (tick ⟨[1], []⟩ (.payload ⟨some 200, some SAMPLE_TT⟩) "2025-06-15" 53880).2.1 = []
    ∧ (tick ⟨[1], []⟩ (.payload ⟨some 200, some SAMPLE_TT⟩) "2025-06-15" 54120).2.1 = []
    ∧ (tick ⟨[1], []⟩ (.payload ⟨some 200, some SAMPLE_TT⟩) "2025-06-15" 56890).2.1
        = [("Asr", "16:00")] :=
  ⟨by decide, by decide, by decide, by decide, by decide, by decide, by decide, by decide⟩

/-- C3: on a tick with a successful (hence nonempty) fetch whose date key
is absent from the ledger, the reset replaces the ledger by exactly the
singleton mapping of the date key to the empty notified-list, and the tick
leaves a ledger whose only key is the current date; consequently, after a
date rollover every one of the five prayers dispatches again (demonstrated
on two consecutive days, five ticks each at the shifted fire instants). -/
theorem C3_ledger_daily_reset (tt : List (String × String)) (d : String) (now : Int)
    (led : Ledger) (h : dictHasKey d led = false) (hne : tt ≠ []) :
    resetLedger d led = [(d, [])]
    ∧ ((check_prayer_times (some tt) d now led).1).map Prod.fst = [d]
    ∧ (runTicks
        [("2025-06-15", .payload ⟨some 200, some SAMPLE_TT⟩, 17280),
         ("2025-06-15", .payload ⟨some 200, some SAMPLE_TT⟩, 44280),
         ("2025-06-15", .payload ⟨some 200, some SAMPLE_TT⟩, 56880),
         ("2025-06-15", .payload ⟨some 200, some SAMPLE_TT⟩, 66780),
         ("2025-06-15", .payload ⟨some 200, some SAMPLE_TT⟩, 71280),
         ("2025-06-16", .payload ⟨some 200, some SAMPLE_TT⟩, 17280),
         ("2025-06-16", .payload ⟨some 200, some SAMPLE_TT⟩, 44280),
         ("2025-06-16", .payload ⟨some 200, some SAMPLE_TT⟩, 56880),
         ("2025-06-16", .payload ⟨some 200, some SAMPLE_TT⟩, 66780),
         ("2025-06-16", .payload ⟨some 200, some SAMPLE_TT⟩, 71280)] ⟨[], []⟩).2
        = SAMPLE_TT ++ SAMPLE_TT := by
  have hres : resetLedger d led = [(d, [])] := by
    unfold resetLedger
    rw [h]
    rfl
  refine ⟨hres, ?_, by decide⟩
  cases tt with
  | nil => exact absurd rfl hne
  | cons e rest =>
    have hemp : ((e :: rest).isEmpty) = false := rfl
    simp only [check_prayer_times, hemp, Bool.false_eq_true, if_false]
    rw [checkLoop_keys, hres]
    rfl

/-- Witness for C3: a rolled-over day key absent from a ledger that still
holds the previous day. -/
theorem C3_ledger_daily_reset_witness :
    resetLedger "2025-06-16" [("2025-06-15", ["2025-06-15-Asr"])] = [("2025-06-16", [])]
    ∧ ((check_prayer_times (some SAMPLE_TT) "2025-06-16" 0
        [("2025-06-15", ["2025-06-15-Asr"])]).1).map Prod.fst = ["2025-06-16"]
    ∧ (runTicks
        [("2025-06-15", .payload ⟨some 200, some SAMPLE_TT⟩, 17280),
         ("2025-06-15", .payload ⟨some 200, some SAMPLE_TT⟩, 44280),
         ("2025-06-15", .payload ⟨some 200, some SAMPLE_TT⟩, 56880),
         ("2025-06-15", .payload ⟨some 200, some SAMPLE_TT⟩, 66780),
         ("2025-06-15", .payload ⟨some 200, some SAMPLE_TT⟩, 71280),
         ("2025-06-16", .payload ⟨some 200, some SAMPLE_TT⟩, 17280),
         ("2025-06-16", .payload ⟨some 200, some SAMPLE_TT⟩, 44280),
         ("2025-06-16", .payload ⟨some 200, some SAMPLE_TT⟩, 56880),
         ("2025-06-16", .payload ⟨some 200, some SAMPLE_TT⟩, 66780),
         ("2025-06-16", .payload ⟨some 200, some SAMPLE_TT⟩, 71280)] ⟨[], []⟩).2
        = SAMPLE_TT ++ SAMPLE_TT :=
  C3_ledger_daily_reset SAMPLE_TT "2025-06-16" 0
    [("2025-06-15", ["2025-06-15-Asr"])] (by decide) (by decide)

/-- C8 is refuted at this input: `check_prayer_times` has no try/except of
its own, so the `ValueError` from parsing the malformed Fajr string "xx:yy"
propagates out of the tick (normal-return flag `false`) instead of being
caught at the tick boundary. -/
theorem C8_counterexample_malformed_time_raises :
    (tick ⟨[1], []⟩ (.payload ⟨some 200, some [("Fajr", "xx:yy"), ("Dhuhr", "12:30"),
        ("Asr", "16:00"), ("Maghrib", "18:45"), ("Isha", "20:00")]⟩) "2025-06-15" 54010).2.2
      = false := by decide

/-- C8 (amended): fetch errors are contained inside `get_prayer_times` - a
failed fetch still ends the tick normally - but the tick body has no
boundary catch of its own: a tick returns normally exactly when every
fetched time string parses as HH:MM, and a malformed string raises out of
the tick. -/
theorem C8_tick_raises_iff_malformed_time :
    (∀ d now led, (check_prayer_times none d now led).2.2 = true)
    ∧ (∀ tt d now led, (check_prayer_times (some tt) d now led).2.2
        = tt.all (fun e => (parseHM e.2).isSome)) := by
  constructor
  · intro d now led
    rfl
  · intro tt d now led
    cases tt with
    | nil => rfl
    | cons e rest =>
      have hemp : ((e :: rest).isEmpty) = false := rfl
      simp only [check_prayer_times, hemp, Bool.false_eq_true, if_false]
      exact checkLoop_flag d now (e :: rest) (resetLedger d led)

/-- C4: `get_prayer_times` either returns a mapping whose domain is exactly
the five prayer names, each bound to the corresponding time string of the
payload, or returns failure; and it fails on a transport error, on a
missing or non-200 embedded status code, and on a malformed payload,
including one missing any of the five prayer keys. -/
theorem C4_fetch_returns_five_prayers_or_failure :
    (∀ inp r, get_prayer_times inp = some r →
        r.map Prod.fst = PRAYER_NAMES
        ∧ ∃ p, inp = .payload p ∧ p.code = some 200
            ∧ ∃ ts, p.timings = some ts ∧ ∀ e ∈ r, lookupTiming e.1 ts = some e.2)
    ∧ get_prayer_times .transportError = none
    ∧ (∀ p, p.code = none → get_prayer_times (.payload p) = none)
    ∧ (∀ p c, p.code = some c → c ≠ 200 → get_prayer_times (.payload p) = none)
    ∧ (∀ p, p.timings = none → get_prayer_times (.payload p) = none)
    ∧ (∀ p ts nm, p.timings = some ts → nm ∈ PRAYER_NAMES → lookupTiming nm ts = none →
        get_prayer_times (.payload p) = none) := by
  refine ⟨?_, rfl, ?_, ?_, ?_, ?_⟩
  · intro inp r hr
    cases inp with
    | transportError => simp [get_prayer_times] at hr
    | payload p =>
      obtain ⟨pc, pts⟩ := p
      cases pc with
      | none => simp [get_prayer_times] at hr
      | some c =>
        by_cases h200 : c = 200
        · subst h200
          cases pts with
          | none => simp [get_prayer_times] at hr
          | some ts =>
            simp only [get_prayer_times] at hr
            split at hr
            · split at hr
              · injection hr with hr
                subst hr
                rename_i f dh a mg i hf hdh ha hmg hi
                refine ⟨rfl, ⟨some 200, some ts⟩, rfl, rfl, ts, rfl, ?_⟩
                intro e he
                simp only [List.mem_cons, List.not_mem_nil, or_false] at he
                rcases he with rfl | rfl | rfl | rfl | rfl
                · exact hf
                · exact hdh
                · exact ha
                · exact hmg
                · exact hi
              · exact Option.noConfusion hr
            · exact Option.noConfusion hr
        · simp [get_prayer_times, h200] at hr
  · intro p hc
    obtain ⟨pc, pts⟩ := p
    cases hc
    rfl
  · intro p c hc h200
    obtain ⟨pc, pts⟩ := p
    cases hc
    simp [get_prayer_times, h200]
  · intro p hts
    obtain ⟨pc, pts⟩ := p
    cases hts
    cases pc with
    | none => rfl
    | some c =>
      simp only [get_prayer_times]
      split
      · rfl
      · rfl
  · intro p ts nm hts hnm hlk
    obtain ⟨pc, pts⟩ := p
    cases hts
    cases pc with
    | none => rfl
    | some c =>
      by_cases h200 : c = 200
      · subst h200
        simp only [get_prayer_times]
        split
        · split
          · rename_i f dh a mg i hf hdh ha hmg hi
            simp only [PRAYER_NAMES, List.mem_cons, List.not_mem_nil, or_false] at hnm
            rcases hnm with rfl | rfl | rfl | rfl | rfl
            · rw [hf] at hlk
              exact Option.noConfusion hlk
            · rw [hdh] at hlk
              exact Option.noConfusion hlk
            · rw [ha] at hlk
              exact Option.noConfusion hlk
            · rw [hmg] at hlk
              exact Option.noConfusion hlk
            · rw [hi] at hlk
              exact Option.noConfusion hlk
          · rfl
        · rfl
      · simp [get_prayer_times, h200]

/-- Witness for C4: a well-formed 200 payload yields exactly the five
prayers; a 500 status and a payload missing Dhuhr both yield failure. -/
theorem C4_fetch_returns_five_prayers_or_failure_witness :
    (SAMPLE_TT.map Prod.fst = PRAYER_NAMES
      ∧ ∃ p, FetchInput.payload ⟨some 200, some SAMPLE_TT⟩ = .payload p ∧ p.code = some 200
          ∧ ∃ ts, p.timings = some ts ∧ ∀ e ∈ SAMPLE_TT, lookupTiming e.1 ts = some e.2)
    ∧ get_prayer_times (.payload ⟨some 500, some SAMPLE_TT⟩) = none
    ∧ get_prayer_times (.payload ⟨some 200, some [("Fajr", "05:00")]⟩) = none :=
  ⟨C4_fetch_returns_five_prayers_or_failure.1 (.payload ⟨some 200, some SAMPLE_TT⟩)
      SAMPLE_TT (by decide),
   C4_fetch_returns_five_prayers_or_failure.2.2.2.1 ⟨some 500, some SAMPLE_TT⟩ 500 rfl
      (by decide),
   C4_fetch_returns_five_prayers_or_failure.2.2.2.2.2 ⟨some 200, some [("Fajr", "05:00")]⟩
      [("Fajr", "05:00")] "Dhuhr" rfl (by decide) rfl⟩

/-- C6: starting from any state satisfying the store invariant - the
persisted file reloads to exactly the in-memory list and the list has no
duplicates, as after a startup from a duplicate-free (or absent) file -
every sequence of subscribe/unsubscribe commands preserves the invariant
after each operation; order is insertion order: subscribe appends the new
id at the end and unsubscribe removes its occurrence, keeping the rest in
their order. -/
theorem C6_store_matches_memory_no_dup :
    (∀ s, Inv s → ∀ c, Inv (applyCmd c s))
    ∧ (∀ s, Inv s → ∀ ops, Inv (runCmds ops s))
    ∧ (∀ s cid, cid ∉ s.users → (start_cmd cid s).1.users = s.users ++ [cid])
    ∧ (∀ s cid, (stop_cmd cid s).1.users = s.users.erase cid) := by
  have hstep : ∀ s, Inv s → ∀ c, Inv (applyCmd c s) := by
    intro s hs c
    obtain ⟨hnd, hload⟩ := hs
    cases c with
    | start cid =>
      simp only [applyCmd, start_cmd]
      by_cases hmem : cid ∉ s.users
      · rw [if_pos hmem]
        refine ⟨?_, rfl⟩
        exact List.Nodup.append hnd (List.nodup_singleton cid)
          (fun a ha hb => hmem ((List.mem_singleton.mp hb) ▸ ha))
      · rw [if_neg hmem]
        exact ⟨hnd, hload⟩
    | stop cid =>
      simp only [applyCmd, stop_cmd]
      by_cases hmem : cid ∈ s.users
      · rw [if_pos hmem]
        exact ⟨hnd.erase cid, rfl⟩
      · rw [if_neg hmem]
        exact ⟨hnd, hload⟩
  refine ⟨hstep, ?_, ?_, ?_⟩
  · intro s hs ops
    induction ops generalizing s with
    | nil => exact hs
    | cons c cs ih => exact ih (applyCmd c s) (hstep s hs c)
  · intro s cid hmem
    simp only [start_cmd]
    rw [if_pos hmem]
    rfl
  · intro s cid
    simp only [stop_cmd]
    by_cases hmem : cid ∈ s.users
    · rw [if_pos hmem]
      rfl
    · rw [if_neg hmem, List.erase_of_not_mem hmem]

/-- Witness for C6: a subscribe/unsubscribe sequence with a duplicate
subscribe and an unsubscribe of an absent id, from the empty startup
state. -/
theorem C6_store_matches_memory_no_dup_witness :
    Inv (runCmds [Cmd.start 1, Cmd.start 2, Cmd.start 1, Cmd.stop 1, Cmd.stop 3]
      ⟨[], .missing⟩)
    ∧ (start_cmd 2 ⟨[1], .content [1]⟩).1.users = [1, 2]
    ∧ (stop_cmd 1 ⟨[1, 2], .content [1, 2]⟩).1.users = [2] :=
  ⟨C6_store_matches_memory_no_dup.2.1 ⟨[], .missing⟩ ⟨List.nodup_nil, rfl⟩ _,
   C6_store_matches_memory_no_dup.2.2.1 ⟨[1], .content [1]⟩ 2 (by decide),
   C6_store_matches_memory_no_dup.2.2.2 ⟨[1, 2], .content [1, 2]⟩ 1⟩

/-- C7: subscribing an already-subscribed id leaves the state (memory and
file) unchanged; unsubscribing an absent id leaves the state unchanged and
yields the not-subscribed reply, which differs from the confirmation. -/
theorem C7_subscribe_unsubscribe_idempotent :
    (∀ s cid, cid ∈ s.users → start_cmd cid s = (s, Reply.startWelcome))
    ∧ (∀ s cid, cid ∉ s.users → stop_cmd cid s = (s, Reply.stopNotSubscribed))
    ∧ Reply.stopNotSubscribed ≠ Reply.stopConfirm := by
  refine ⟨?_, ?_, by decide⟩
  · intro s cid hmem
    simp only [start_cmd]
    rw [if_neg (not_not_intro hmem)]
  · intro s cid hmem
    simp only [stop_cmd]
    rw [if_neg hmem]

/-- Witness for C7: re-subscribing id 5 and unsubscribing the absent id 9
both leave the concrete state unchanged. -/
theorem C7_subscribe_unsubscribe_idempotent_witness :
    start_cmd 5 ⟨[5], .content [5]⟩ = (⟨[5], .content [5]⟩, Reply.startWelcome)
    ∧ stop_cmd 9 ⟨[5], .content [5]⟩ = (⟨[5], .content [5]⟩, Reply.stopNotSubscribed) :=
  ⟨C7_subscribe_unsubscribe_idempotent.1 ⟨[5], .content [5]⟩ 5 (by decide),
   C7_subscribe_unsubscribe_idempotent.2.1 ⟨[5], .content [5]⟩ 9 (by decide)⟩

end PrayerBot
